import Mathlib

/-!
Verification of the NEPHIX assistant core.

This file gives a shallow embedding, in Lean 4, of the parts of the
repository's Python code that the checked properties concern:

* `Core` models `src/src/assistant_core.py` (the main task system: outline
  generation, the write stage, the word-count revision pass, thesis
  validation, and the reading interleaving scheduler);
* `Poc` models `src/poc/assistant_core.py` (the proof-of-concept variant:
  id-based outline/section synchronization, task serialization via
  `to_state`/`from_state`, and the per-source-cursor reading mode).

Python `datetime` instants are modelled as natural numbers; the pair
`datetime.isoformat` / `datetime.fromisoformat` is a bijection on instants
and is modelled as the identity. Python `dict`s with a fixed key set are
modelled as structures (or association lists for the small `tree_prompts`
maps). Python `float` arithmetic in the modelled code is exact:
`total_words * 0.125` is a multiple of 1/8 and the deviation ratios are
compared against 0.1/0.2/0.4, quotients of small integers whose order
relative to those thresholds is never closer than the double rounding
error, so rational arithmetic is a faithful model; Python's built-in
`round` is round-half-to-even and is modelled by `pyround` below.
-/

namespace Core

/-- Python's built-in `round` on an exact rational value: round half to even
(banker's rounding). `round q` (Mathlib, half up) agrees with it away from
exact halves. -/
def pyround (q : ℚ) : ℤ :=
  if q - ⌊q⌋ = 1 / 2 then (if ⌊q⌋ % 2 = 0 then ⌊q⌋ else ⌊q⌋ + 1) else round q

/-- A rounded value is within one half of the original, whichever way ties
are broken. -/
theorem abs_pyround_sub_le (q : ℚ) : |(pyround q : ℚ) - q| ≤ 1 / 2 := by
  unfold pyround
  have hfl : (⌊q⌋ : ℚ) ≤ q := Int.floor_le q
  split_ifs with h h2
  · rw [abs_le]
    constructor <;> linarith
  · push_cast
    rw [abs_le]
    constructor <;> linarith
  · rw [abs_sub_comm]
    exact abs_sub_round q

/-- OrganizeStage._calculate_body_paragraphs from src/src/assistant_core.py. -/
def calculate_body_paragraphs (word_count : ℕ) : ℕ :=
  if word_count ≤ 500 then 2
  else if word_count ≤ 800 then 3
  else if word_count ≤ 1200 then 4
  else 5

/-- OrganizeStage._get_ordinal from src/src/assistant_core.py; every caller
passes n ≥ 1 (the Python list lookup `ordinals[n-1]`). -/
def get_ordinal (n : ℕ) : String :=
  if 1 ≤ n ∧ n ≤ 5 then
    ["first", "second", "third", "fourth", "fifth"].getD (n - 1) ""
  else s!"{n}th"

/-- OutlineSection dataclass from src/src/assistant_core.py. -/
structure OutlineSection where
  title : String
  word_count : ℤ
  guiding_question : String := ""
  content : String := ""
  completed : Bool := false
deriving Repr, DecidableEq

/-- OrganizeStage._generate_outline from src/src/assistant_core.py.
`0.125` is exact in IEEE doubles and `total_words ≤ 5000`, so the float
products are exact; `body_words / count` has denominator at most 5, and
Python's float division then `round` agrees with `pyround` on the exact
rational (ties arise only for denominators 2 and 4, where the quotient is
an exact double). -/
def generate_outline (total_words : ℕ) : List OutlineSection :=
  let intro_words := pyround ((total_words : ℚ) * 0.125)
  let conclusion_words := pyround ((total_words : ℚ) * 0.125)
  let body_words : ℤ := (total_words : ℤ) - intro_words - conclusion_words
  let body_para_count := calculate_body_paragraphs total_words
  let words_per_body_para := pyround ((body_words : ℚ) / ((max 1 body_para_count : ℕ) : ℚ))
  [{ title := "Introduction", word_count := intro_words,
     guiding_question := "How will you introduce the topic and present your thesis?" }]
  ++ (List.range body_para_count).map (fun k =>
      let i := k + 1
      let ord := get_ordinal i
      { title := s!"Body Paragraph {i}", word_count := words_per_body_para,
        guiding_question := s!"What is your {ord} main argument supporting your thesis?" })
  ++ [{ title := "Conclusion", word_count := conclusion_words,
        guiding_question := "How will you summarize and reinforce your thesis?" }]

/-- C7: the number of body paragraphs in the generated outline is exactly 2
when W ≤ 500, 3 when 501 ≤ W ≤ 800, 4 when 801 ≤ W ≤ 1200, and 5 when
W > 1200. -/
theorem body_paragraph_count_step (W : ℕ) :
    (W ≤ 500 → calculate_body_paragraphs W = 2) ∧
    (500 < W → W ≤ 800 → calculate_body_paragraphs W = 3) ∧
    (800 < W → W ≤ 1200 → calculate_body_paragraphs W = 4) ∧
    (1200 < W → calculate_body_paragraphs W = 5) := by
  unfold calculate_body_paragraphs
  refine ⟨fun h => ?_, fun h1 h2 => ?_, fun h1 h2 => ?_, fun h => ?_⟩ <;>
    · split_ifs <;> omega

/-- C7 witness: a concrete instantiation in each band. -/
theorem body_paragraph_count_step_witness :
    calculate_body_paragraphs 300 = 2 ∧ calculate_body_paragraphs 600 = 3 ∧
    calculate_body_paragraphs 1000 = 4 ∧ calculate_body_paragraphs 2000 = 5 :=
  ⟨(body_paragraph_count_step 300).1 (by decide),
   (body_paragraph_count_step 600).2.1 (by decide) (by decide),
   (body_paragraph_count_step 1000).2.2.1 (by decide) (by decide),
   (body_paragraph_count_step 2000).2.2.2 (by decide)⟩

/-- The body-paragraph count is at least 2 (hence at least 1). -/
theorem two_le_calculate_body_paragraphs (W : ℕ) : 2 ≤ calculate_body_paragraphs W := by
  unfold calculate_body_paragraphs
  split_ifs <;> omega

/-- C6: for every valid target word count W in [100, 5000], the word counts
of the generated outline's sections sum to within ± the number of outline
sections of W. -/
theorem generate_outline_sum_close (W : ℕ) (h1 : 100 ≤ W) (h2 : W ≤ 5000) :
    |(((generate_outline W).map OutlineSection.word_count).sum - (W : ℤ))| ≤
      ((generate_outline W).length : ℤ) := by
  have hc2 : 2 ≤ calculate_body_paragraphs W := two_le_calculate_body_paragraphs W
  set i := pyround ((W : ℚ) * 0.125) with hi
  set c := calculate_body_paragraphs W with hc
  have hmax : max 1 c = c := by omega
  set b : ℤ := (W : ℤ) - i - i with hb
  set p := pyround ((b : ℚ) / ((max 1 c : ℕ) : ℚ)) with hp
  have hmap : ((generate_outline W).map OutlineSection.word_count).sum
      = i + c * p + i := by
    simp only [generate_outline, ← hi, ← hc, ← hb, ← hp]
    rw [List.map_append, List.map_append, List.sum_append, List.sum_append]
    simp [List.map_map, Function.comp_def, mul_comm]
  have hlen : (generate_outline W).length = c + 2 := by
    simp [generate_outline, ← hc]
  rw [hmap, hlen]
  -- the introduction and conclusion words cancel against the body remainder
  have key : |((p : ℚ)) - (b : ℚ) / ((max 1 c : ℕ) : ℚ)| ≤ 1 / 2 :=
    abs_pyround_sub_le ((b : ℚ) / ((max 1 c : ℕ) : ℚ))
  have hcpos : (0 : ℚ) < ((max 1 c : ℕ) : ℚ) := by
    have h5 : 1 ≤ max 1 c := le_max_left 1 c
    exact_mod_cast Nat.lt_of_lt_of_le Nat.zero_lt_one h5
  have hqc : |((max 1 c : ℕ) : ℚ) * (p : ℚ) - (b : ℚ)| ≤ ((max 1 c : ℕ) : ℚ) / 2 := by
    have h3 : ((max 1 c : ℕ) : ℚ) * (p : ℚ) - (b : ℚ)
        = ((p : ℚ) - (b : ℚ) / ((max 1 c : ℕ) : ℚ)) * ((max 1 c : ℕ) : ℚ) := by
      rw [sub_mul, div_mul_cancel₀ _ (ne_of_gt hcpos), mul_comm]
    rw [h3, abs_mul, abs_of_pos hcpos]
    calc |(p : ℚ) - (b : ℚ) / ((max 1 c : ℕ) : ℚ)| * ((max 1 c : ℕ) : ℚ)
        ≤ (1 / 2) * ((max 1 c : ℕ) : ℚ) :=
          mul_le_mul_of_nonneg_right key (le_of_lt hcpos)
      _ = ((max 1 c : ℕ) : ℚ) / 2 := by ring
  rw [hmax] at hqc
  have hcq : (0 : ℚ) ≤ (c : ℚ) := by positivity
  have hint : |(c : ℤ) * p - b| ≤ (c : ℤ) + 2 := by
    have hq : ((|(c : ℤ) * p - b| : ℤ) : ℚ) ≤ (((c : ℤ) + 2 : ℤ) : ℚ) := by
      rw [Int.cast_abs]
      push_cast
      calc |(c : ℚ) * (p : ℚ) - (b : ℚ)| ≤ (c : ℚ) / 2 := hqc
        _ ≤ (c : ℚ) + 2 := by linarith
    exact_mod_cast hq
  have heq : i + (c : ℤ) * p + i - (W : ℤ) = (c : ℤ) * p - b := by
    rw [hb]; ring
  rw [heq]
  calc |(c : ℤ) * p - b| ≤ (c : ℤ) + 2 := hint
    _ ≤ ((c + 2 : ℕ) : ℤ) := by push_cast; omega

/-- C6 witness: the bound at W = 1000 (the generated outline has 6 sections,
and its word counts 125 + 4·188 + 125 sum to 1002). -/
theorem generate_outline_sum_close_witness :
    |(((generate_outline 1000).map OutlineSection.word_count).sum - (1000 : ℤ))| ≤
      ((generate_outline 1000).length : ℤ) :=
  generate_outline_sum_close 1000 (by decide) (by decide)

/-- Python str.strip(): drop leading and trailing whitespace. -/
def py_strip (s : String) : String :=
  String.mk (((s.data.dropWhile Char.isWhitespace).reverse.dropWhile
      Char.isWhitespace).reverse)

/-- Split a character list at every character satisfying p; the pieces keep
their order and empty pieces are kept (Python str.split(sep) semantics for a
one-character sep, and the basis for whitespace splitting below). -/
def split_on_pred (p : Char → Bool) : List Char → List (List Char)
  | [] => [[]]
  | c :: rest =>
    match split_on_pred p rest with
    | [] => [[c]]
    | piece :: pieces =>
      if p c then [] :: piece :: pieces else (c :: piece) :: pieces

/-- Python thesis.split("."). -/
def py_split_dot (s : String) : List String :=
  (split_on_pred (fun c => c = '.') s.data).map String.mk

/-- Python text.split() (no separator): split on whitespace runs and drop
the empty pieces. -/
def py_split_ws (s : String) : List String :=
  ((split_on_pred Char.isWhitespace s.data).map String.mk).filter (fun w => w ≠ "")

/-- PickIdeasStage._validate_thesis from src/src/assistant_core.py:
reject an empty or short (stripped length < 10) thesis, then require the
period-separated, stripped, non-empty segments to number 1 or 2. -/
def validate_thesis (thesis : String) : Bool :=
  if thesis = "" ∨ (py_strip thesis).length < 10 then false
  else
    let sentences := ((py_split_dot thesis).map py_strip).filter (fun s => s ≠ "")
    decide (1 ≤ sentences.length ∧ sentences.length ≤ 2)

/-- EssaySection dataclass from src/src/assistant_core.py (`tree_prompts`,
a dict with the fixed keys T/R/E1/E2, is modelled as an association list). -/
structure EssaySection where
  title : String
  target_words : ℤ
  guiding_question : String := ""
  content : String := ""
  actual_words : ℕ := 0
  completed : Bool := false
  tree_prompts : List (String × String) := []
deriving Repr, DecidableEq, Inhabited

/-- EssayData from src/src/assistant_core.py, restricted to the fields the
operations modelled here read or write (deadline, outline, revision_passes
and the timeline are never touched by them). -/
structure EssayData where
  topic : String := ""
  essay_type : String := ""
  word_count : ℕ := 0
  thesis : String := ""
  sections : List EssaySection := []
deriving Repr, DecidableEq, Inhabited

/-- PickIdeasStage.set_thesis: raises ValueError("Invalid thesis statement")
when validation fails — modelled as Except.error; Python raises before the
assignment, so the error case leaves the essay data unchanged. -/
def set_thesis (essay_data : EssayData) (thesis : String) : Except String EssayData :=
  if validate_thesis thesis then .ok { essay_data with thesis := thesis }
  else .error "Invalid thesis statement"

/-- PickIdeasStage.validate: `bool(essay_data.thesis)`. -/
def pick_ideas_validate (essay_data : EssayData) : Bool :=
  essay_data.thesis != ""

/-- C9: set_thesis accepts exactly the inputs whose trimmed length is at
least 10 and which split on periods into 1–2 segments non-empty after
trimming; on success the thesis is stored and stage-1 validate becomes true;
any other input fails with the invalid-thesis error, leaving the data
unchanged (the error is raised before any assignment). -/
theorem set_thesis_accepts_iff (essay_data : EssayData) (t : String) :
    ((∃ r, set_thesis essay_data t = .ok r) ↔
      (10 ≤ (py_strip t).length ∧
        1 ≤ (((py_split_dot t).map py_strip).filter (fun s => s ≠ "")).length ∧
        (((py_split_dot t).map py_strip).filter (fun s => s ≠ "")).length ≤ 2)) ∧
    (validate_thesis t = true →
      set_thesis essay_data t = .ok { essay_data with thesis := t } ∧
      pick_ideas_validate { essay_data with thesis := t } = true) ∧
    (validate_thesis t = false →
      set_thesis essay_data t = .error "Invalid thesis statement") := by
  have hval : validate_thesis t = true ↔
      (10 ≤ (py_strip t).length ∧
        1 ≤ (((py_split_dot t).map py_strip).filter (fun s => s ≠ "")).length ∧
        (((py_split_dot t).map py_strip).filter (fun s => s ≠ "")).length ≤ 2) := by
    unfold validate_thesis
    split_ifs with h
    · simp only [false_iff]
      rintro ⟨h10, -, -⟩
      rcases h with h | h
      · rw [h] at h10
        exact absurd h10 (by decide)
      · omega
    · push_neg at h
      simp only [decide_eq_true_eq]
      constructor
      · rintro ⟨h1, h2⟩
        exact ⟨by omega, h1, h2⟩
      · rintro ⟨-, h1, h2⟩
        exact ⟨h1, h2⟩
  refine ⟨?_, ?_, ?_⟩
  · rw [← hval]
    constructor
    · rintro ⟨r, hr⟩
      by_contra hv
      rw [Bool.not_eq_true] at hv
      unfold set_thesis at hr
      rw [hv] at hr
      simp at hr
    · intro hv
      refine ⟨{ essay_data with thesis := t }, ?_⟩
      unfold set_thesis
      rw [hv]
      simp
  · intro hv
    have hne : t ≠ "" := by
      intro heq
      rw [hval] at hv
      rw [heq] at hv
      exact absurd hv.1 (by decide)
    constructor
    · unfold set_thesis
      rw [hv]
      simp
    · simp [pick_ideas_validate, hne]
  · intro hv
    unfold set_thesis
    rw [hv]
    simp

/-- C9 witness: the spec's two concrete inputs — "Short" is rejected and
"This is a valid thesis statement." is accepted, stored and makes the
stage-1 gate pass. -/
theorem set_thesis_accepts_iff_witness :
    set_thesis default "This is a valid thesis statement."
        = .ok { (default : EssayData) with thesis := "This is a valid thesis statement." } ∧
    pick_ideas_validate
        { (default : EssayData) with thesis := "This is a valid thesis statement." } = true ∧
    set_thesis default "Short" = .error "Invalid thesis statement" := by
  have hok := (set_thesis_accepts_iff default "This is a valid thesis statement.").2.1
    (by decide)
  have hbad := (set_thesis_accepts_iff default "Short").2.2 (by decide)
  exact ⟨hok.1, hok.2, hbad⟩

/-- WriteStage._count_words: `text.strip().split()` then count the non-empty
tokens (Python str.split() already drops empty strings, so the trailing
list-comprehension filter of the source is a no-op reproduced by
py_split_ws's filter). -/
def count_words (text : String) : ℕ :=
  (py_split_ws (py_strip text)).length

/-- The dict WriteStage.add_content returns. -/
structure AddContentResult where
  completed : Bool
  total_completed : Bool
  section_title : String
  actual_words : ℕ
  target_words : ℤ
deriving Repr, DecidableEq

/-- WriteStage.add_content: raises IndexError("Invalid section index") unless
0 ≤ section_index < len(sections) — modelled as Except.error, raised before
any mutation — otherwise rewrites the chosen section's content, recomputes
its actual word count and sets completed = (actual_words > 0). -/
def add_content (sections : List EssaySection) (section_index : ℤ) (content : String) :
    Except String (List EssaySection × AddContentResult) :=
  if 0 ≤ section_index ∧ section_index < sections.length then
    let idx := section_index.toNat
    let s := sections.getD idx default
    let s' := { s with
                content := content,
                actual_words := count_words content,
                completed := decide (0 < count_words content) }
    let sections' := sections.set idx s'
    .ok (sections', { completed := s'.completed,
                      total_completed := sections'.all (fun x => x.completed),
                      section_title := s'.title, actual_words := s'.actual_words,
                      target_words := s'.target_words })
  else .error "Invalid section index"

/-- C4: saveSectionContent fails with an out-of-range error for an invalid
index (the section list unchanged, since the error precedes any mutation);
for a valid index it sets that section's content to the text, recomputes its
actual word count as the number of whitespace-delimited non-empty tokens,
sets completed exactly when that count is positive, and leaves that
section's other fields and every other section unchanged. -/
theorem add_content_spec (sections : List EssaySection) (section_index : ℤ)
    (content : String) :
    (¬(0 ≤ section_index ∧ section_index < sections.length) →
      add_content sections section_index content = .error "Invalid section index") ∧
    ((0 ≤ section_index ∧ section_index < sections.length) →
      (∃ r, add_content sections section_index content =
        .ok (sections.set section_index.toNat
              { (sections.getD section_index.toNat default) with
                content := content,
                actual_words := count_words content,
                completed := decide (0 < count_words content) }, r)) ∧
      (∀ j, j ≠ section_index.toNat →
        (sections.set section_index.toNat
            { (sections.getD section_index.toNat default) with
              content := content,
              actual_words := count_words content,
              completed := decide (0 < count_words content) }).getD j default
          = sections.getD j default)) := by
  constructor
  · intro h
    unfold add_content
    rw [if_neg h]
  · intro h
    constructor
    · refine ⟨{ completed := decide (0 < count_words content),
                total_completed := (sections.set section_index.toNat
                  { (sections.getD section_index.toNat default) with
                    content := content,
                    actual_words := count_words content,
                    completed := decide (0 < count_words content) }).all
                  (fun x => x.completed),
                section_title := (sections.getD section_index.toNat default).title,
                actual_words := count_words content,
                target_words :=
                  (sections.getD section_index.toNat default).target_words }, ?_⟩
      unfold add_content
      rw [if_pos h]
    · intro j hj
      simp [List.getD_eq_getElem?_getD, List.getElem?_set_ne (fun heq => hj heq.symm)]

/-- C4 witness: a valid save at index 0 of a one-section list, and the
failing out-of-range save at index 1. -/
theorem add_content_spec_witness :
    (∃ r, add_content [{ title := "Introduction", target_words := 50 }] 0 "two words" =
      .ok ([{ title := "Introduction", target_words := 50, content := "two words",
              actual_words := 2, completed := true }], r)) ∧
    add_content [{ title := "Introduction", target_words := 50 }] 1 "x" =
      .error "Invalid section index" := by
  have h1 := (add_content_spec [{ title := "Introduction", target_words := 50 }] 0
    "two words").2 (by constructor <;> decide)
  have h2 := (add_content_spec [{ title := "Introduction", target_words := 50 }] 1
    "x").1 (by intro h; exact absurd h.2 (by decide))
  refine ⟨?_, h2⟩
  obtain ⟨r, hr⟩ := h1.1
  refine ⟨r, ?_⟩
  rw [hr, show ([{ title := "Introduction", target_words := 50 }] :
      List EssaySection).set (Int.toNat 0)
      { (([{ title := "Introduction", target_words := 50 }] :
          List EssaySection).getD (Int.toNat 0) default) with
        content := "two words",
        actual_words := count_words "two words",
        completed := decide (0 < count_words "two words") }
    = [{ title := "Introduction", target_words := 50, content := "two words",
         actual_words := 2, completed := true }] from by decide]

/-- RevisionIssue dataclass from src/src/assistant_core.py. -/
structure RevisionIssue where
  issue_type : String
  description : String
  location : String
  severity : String := "medium"
  resolved : Bool := false
deriving Repr, DecidableEq

/-- The running total of WordCountPass.analyze: the sum of the sections'
actual word counts. -/
def total_actual (essay_data : EssayData) : ℕ :=
  (essay_data.sections.map (fun s => s.actual_words)).sum

/-- The per-section `deviation` local of WordCountPass.analyze:
abs(actual − target)/target when target > 0, else 0. -/
def section_deviation (s : EssaySection) : ℚ :=
  if 0 < s.target_words then
    |(s.actual_words : ℚ) - (s.target_words : ℚ)| / (s.target_words : ℚ)
  else 0

/-- The `total_deviation` local of WordCountPass.analyze:
abs(total_actual − word_count)/word_count when word_count > 0, else 0. -/
def total_deviation (essay_data : EssayData) : ℚ :=
  if 0 < essay_data.word_count then
    |(total_actual essay_data : ℚ) - (essay_data.word_count : ℚ)| /
      (essay_data.word_count : ℚ)
  else 0

/-- The per-section body of the WordCountPass.analyze loop. The description
percentage is Python round of a float; pyround of the exact ratio models it
(a difference could only appear in the description text on a float-inexact
half tie, which no checked property inspects). -/
def section_word_issue (s : EssaySection) : List RevisionIssue :=
  let ot := if s.target_words < (s.actual_words : ℤ) then "over" else "under"
  let pct := pyround (section_deviation s * 100)
  let actual := s.actual_words
  let target := s.target_words
  if 0.2 < section_deviation s then
    [{ issue_type := "word_count",
       description := s!"Section is {ot} target by {pct}% ({actual}/{target} words)",
       location := s.title,
       severity := if 0.4 < section_deviation s then "medium" else "low" }]
  else []

/-- The overall check at the end of WordCountPass.analyze. -/
def overall_word_issue (essay_data : EssayData) : List RevisionIssue :=
  let ot := if essay_data.word_count < total_actual essay_data then "over" else "under"
  let pct := pyround (total_deviation essay_data * 100)
  let total := total_actual essay_data
  let wc := essay_data.word_count
  if 0.1 < total_deviation essay_data then
    [{ issue_type := "word_count",
       description := s!"Essay is {ot} target by {pct}% ({total}/{wc} words)",
       location := "Overall essay",
       severity := if 0.2 < total_deviation essay_data then "high" else "medium" }]
  else []

/-- WordCountPass.analyze from src/src/assistant_core.py: the per-section
issues in source order, followed by the overall check. -/
def word_count_analyze (essay_data : EssayData) : List RevisionIssue :=
  essay_data.sections.flatMap section_word_issue ++ overall_word_issue essay_data

/-- Every issue the per-section word-count check emits is located at that
section's title. -/
theorem section_word_issue_location (s : EssaySection) :
    ∀ i ∈ section_word_issue s, i.location = s.title := by
  intro i hi
  simp only [section_word_issue] at hi
  split_ifs at hi <;>
    first
      | exact absurd hi (List.not_mem_nil i)
      | (rw [List.mem_singleton] at hi; rw [hi])

/-- C8: with a positive target total (and no section titled with the overall
location label, "Overall essay"), the Word Count & Balance pass emits an
overall word_count issue exactly when |Σactual − target|/target exceeds 0.1,
and its severity is "high" exactly when that deviation exceeds 0.2, else
"medium". -/
theorem overall_word_count_threshold (essay_data : EssayData)
    (hwc : 0 < essay_data.word_count)
    (ht : ∀ s ∈ essay_data.sections, s.title ≠ "Overall essay") :
    (((word_count_analyze essay_data).filter
        (fun i => i.location == "Overall essay")).length =
      if 0.1 < |(total_actual essay_data : ℚ) - (essay_data.word_count : ℚ)| /
          (essay_data.word_count : ℚ) then 1 else 0) ∧
    (∀ i ∈ (word_count_analyze essay_data).filter
        (fun i => i.location == "Overall essay"),
      i.issue_type = "word_count" ∧
      i.severity = if 0.2 < |(total_actual essay_data : ℚ) -
          (essay_data.word_count : ℚ)| / (essay_data.word_count : ℚ) then
        "high" else "medium") := by
  have hdev : total_deviation essay_data =
      |(total_actual essay_data : ℚ) - (essay_data.word_count : ℚ)| /
        (essay_data.word_count : ℚ) := by
    unfold total_deviation
    rw [if_pos hwc]
  have hsec : (essay_data.sections.flatMap section_word_issue).filter
      (fun i => i.location == "Overall essay") = [] := by
    rw [List.filter_eq_nil_iff]
    intro a ha
    rw [List.mem_flatMap] at ha
    obtain ⟨s, hs, has⟩ := ha
    have hloc := section_word_issue_location s a has
    simp [hloc, ht s hs]
  unfold word_count_analyze
  rw [List.filter_append, hsec, List.nil_append]
  simp only [overall_word_issue, hdev]
  split_ifs <;>
    refine ⟨by simp, fun i hi => ?_⟩ <;>
    · simp at hi
      try simp [hi]

/-- A concrete essay for the C8 witness: target 400 words, one body section
of 500 actual words, a 25% total deviation. -/
def c8_example : EssayData :=
  { word_count := 400,
    sections := [{ title := "Body", target_words := 500, actual_words := 500 }] }

/-- C8 witness: a 25% total deviation yields exactly one overall word_count
issue and its severity is "high". -/
theorem overall_word_count_threshold_witness :
    ((word_count_analyze c8_example).filter
        (fun i => i.location == "Overall essay")).length = 1 ∧
    ((word_count_analyze c8_example).filter
        (fun i => i.location == "Overall essay")).map (fun i => i.severity)
      = ["high"] := by
  have h := overall_word_count_threshold c8_example (by decide) (by decide)
  have hq1 : (0.1 : ℚ) < |(total_actual c8_example : ℚ) -
      (c8_example.word_count : ℚ)| / (c8_example.word_count : ℚ) := by
    norm_num [total_actual, c8_example]
  have hq2 : (0.2 : ℚ) < |(total_actual c8_example : ℚ) -
      (c8_example.word_count : ℚ)| / (c8_example.word_count : ℚ) := by
    norm_num [total_actual, c8_example]
  have hlen : ((word_count_analyze c8_example).filter
      (fun i => i.location == "Overall essay")).length = 1 := by
    rw [h.1, if_pos hq1]
  obtain ⟨x, hx⟩ := List.length_eq_one.mp hlen
  refine ⟨hlen, ?_⟩
  have hsev := (h.2 x (by rw [hx]; exact List.mem_singleton_self x)).2
  rw [if_pos hq2] at hsev
  rw [hx, List.map_singleton, hsev]

/-- ReadingChunk dataclass from src/src/assistant_core.py (paragraph_index
is 1-based). -/
structure ReadingChunk where
  source_id : String
  source_title : String
  paragraph_index : ℕ
  total_paragraphs_for_source : ℕ
  text : String
deriving Repr, DecidableEq, Inhabited

/-- A normalized reading source as ReadingAssistantTask.validate_params
builds it: {id, title, paragraphs}. -/
structure ReadingSource where
  id : String
  title : String
  paragraphs : List String
deriving Repr, DecidableEq, Inhabited

/-- The ReadingChunk _build_queue appends for paragraph p_idx (0-based) of a
source. -/
def mk_chunk (s : ReadingSource) (p_idx : ℕ) : ReadingChunk :=
  { source_id := s.id, source_title := s.title, paragraph_index := p_idx + 1,
    total_paragraphs_for_source := s.paragraphs.length,
    text := s.paragraphs.getD p_idx "" }

/-- The `order` list of one round of ReadingAssistantTask._build_queue: the
indices of the sources that still have a paragraph at p_idx, in source
order. -/
def round_order (sources : List ReadingSource) (p_idx : ℕ) : List ℕ :=
  (List.range sources.length).filter
    (fun i => p_idx < (sources.getD i default).paragraphs.length)

/-- ReadingAssistantTask._build_queue from src/src/assistant_core.py. The
stateful rng.shuffle is abstracted by `perm`: `perm r order` is the
reordering the round-r shuffle produces (C10 assumes only that it permutes
`order`; with shuffling disabled, or for a round with at most one
qualifying source, `perm` is never consulted). Python's
`max(len(s["paragraphs"]) ...)` over the (always non-empty) source list is
the foldr max 0 below. -/
def build_queue (sources : List ReadingSource) (shuffle_each_round : Bool)
    (perm : ℕ → List ℕ → List ℕ) : List ReadingChunk :=
  let max_len := (sources.map (fun s => s.paragraphs.length)).foldr max 0
  (List.range max_len).flatMap (fun p_idx =>
    let order := round_order sources p_idx
    let order2 := if shuffle_each_round && decide (1 < order.length)
      then perm p_idx order else order
    order2.map (fun i => mk_chunk (sources.getD i default) p_idx))

/-- The cursor step of ReadingAssistantTask.get_next_chunk: the queue entry
at current_index (none once the cursor has reached the queue's length, the
completed signal) together with the new cursor. -/
def get_next_chunk (queue : List ReadingChunk) (current_index : ℕ) :
    Option ReadingChunk × ℕ :=
  if current_index < queue.length then (queue[current_index]?, current_index + 1)
  else (none, current_index)

/-- Modelled from the spec (the refinement target for C5): the queue
described round by round — for each round index r from 0 to R−1, one chunk
per source that still has a paragraph at index r, in the sources' original
order. -/
def build_queue_round_by_round (sources : List ReadingSource) : List ReadingChunk :=
  let max_len := (sources.map (fun s => s.paragraphs.length)).foldr max 0
  (List.range max_len).flatMap (fun r =>
    (sources.filter (fun s => r < s.paragraphs.length)).map (fun s => mk_chunk s r))

/-- Filtering and mapping a list through positional access over the index
range is filtering and mapping the list itself. -/
theorem range_filter_map_getD {α β : Type} (l : List α) (d : α) (p : α → Bool)
    (f : α → β) :
    (((List.range l.length).filter (fun i => p (l.getD i d))).map
      (fun i => f (l.getD i d))) = (l.filter p).map f := by
  induction l with
  | nil => simp
  | cons a t ih =>
    rw [List.length_cons, List.range_succ_eq_map, List.filter_cons]
    rw [List.filter_map]
    by_cases hpa : p a
    · simp only [List.getD_cons_zero, hpa, if_pos]
      rw [List.map_cons, List.map_map]
      have hcomp1 : ((fun i => p ((a :: t).getD i d)) ∘ Nat.succ)
          = (fun i => p (t.getD i d)) := by
        funext i
        simp [List.getD_cons_succ]
      have hcomp2 : ((fun i => f ((a :: t).getD i d)) ∘ Nat.succ)
          = (fun i => f (t.getD i d)) := by
        funext i
        simp [List.getD_cons_succ]
      rw [hcomp1, hcomp2, ih]
      simp [List.getD_cons_zero, hpa]
    · simp only [List.getD_cons_zero, hpa, if_neg, Bool.false_eq_true,
        not_false_iff]
      rw [List.map_map]
      have hcomp1 : ((fun i => p ((a :: t).getD i d)) ∘ Nat.succ)
          = (fun i => p (t.getD i d)) := by
        funext i
        simp [List.getD_cons_succ]
      have hcomp2 : ((fun i => f ((a :: t).getD i d)) ∘ Nat.succ)
          = (fun i => f (t.getD i d)) := by
        funext i
        simp [List.getD_cons_succ]
      rw [hcomp1, hcomp2, ih]
      simp [hpa]

/-- First source of the spec's concrete C5 example: three paragraphs. -/
def c5_src1 : ReadingSource :=
  { id := "text_1", title := "Text 1", paragraphs := ["p1", "p2", "p3"] }

/-- Second source of the spec's concrete C5 example: one paragraph. -/
def c5_src2 : ReadingSource :=
  { id := "text_2", title := "Text 2", paragraphs := ["q1"] }

/-- C5: with shuffling disabled the queue is exactly the round-by-round
interleaving — for every round index one chunk per source that still has a
paragraph there, in the sources' original order, whatever the generator
would have produced — and for two sources with paragraph counts 3 and 1 the
queue has exactly the 4 entries [src1 p1, src2 p1, src1 p2, src1 p3]. -/
theorem build_queue_no_shuffle (sources : List ReadingSource)
    (perm : ℕ → List ℕ → List ℕ) :
    build_queue sources false perm = build_queue_round_by_round sources ∧
    build_queue [c5_src1, c5_src2] false perm =
      [{ source_id := "text_1", source_title := "Text 1", paragraph_index := 1,
         total_paragraphs_for_source := 3, text := "p1" },
       { source_id := "text_2", source_title := "Text 2", paragraph_index := 1,
         total_paragraphs_for_source := 1, text := "q1" },
       { source_id := "text_1", source_title := "Text 1", paragraph_index := 2,
         total_paragraphs_for_source := 3, text := "p2" },
       { source_id := "text_1", source_title := "Text 1", paragraph_index := 3,
         total_paragraphs_for_source := 3, text := "p3" }] := by
  constructor
  · unfold build_queue build_queue_round_by_round
    simp only [Bool.false_and, Bool.false_eq_true, if_false]
    congr 1
    funext p_idx
    unfold round_order
    exact range_filter_map_getD sources default
      (fun s => decide (p_idx < s.paragraphs.length)) (fun s => mk_chunk s p_idx)
  · rfl

/-- flatMap is congruent under pointwise permutation of the pieces. -/
theorem flatMap_perm_congr {α β : Type} (l : List α) (f g : α → List β)
    (h : ∀ a ∈ l, (f a).Perm (g a)) : (l.flatMap f).Perm (l.flatMap g) := by
  induction l with
  | nil => simp
  | cons a t ih =>
    rw [List.flatMap_cons, List.flatMap_cons]
    exact (h a (List.mem_cons_self a t)).append
      (ih (fun x hx => h x (List.mem_cons_of_mem a hx)))

/-- Counting an element of a flatMap, piece by piece. -/
theorem count_flatMap {α β : Type} [BEq β] (l : List α) (f : α → List β) (x : β) :
    (l.flatMap f).count x = (l.map (fun a => (f a).count x)).sum := by
  rw [List.flatMap_def, List.count_flatten, List.map_map]
  rfl

/-- The sum of a function over List.range, as a Finset sum. -/
theorem sum_map_range (f : ℕ → ℕ) (n : ℕ) :
    ((List.range n).map f).sum = ∑ r ∈ Finset.range n, f r := by
  induction n with
  | zero => simp
  | succ n ih =>
    rw [List.range_succ, List.map_append, List.sum_append, Finset.sum_range_succ, ih]
    simp

/-- countP over List.range, as a Finset sum of indicators. -/
theorem countP_range (p : ℕ → Bool) (n : ℕ) :
    (List.range n).countP p = ∑ r ∈ Finset.range n, if p r = true then 1 else 0 := by
  induction n with
  | zero => simp
  | succ n ih =>
    rw [List.range_succ, List.countP_append, Finset.sum_range_succ, ih]
    simp [List.countP_cons]

/-- A flatMap through positional access over the index range. -/
theorem flatMap_index {α β : Type} (l : List α) (d : α) (g : α → List β) :
    l.flatMap g = (List.range l.length).flatMap (fun i => g (l.getD i d)) := by
  induction l with
  | nil => simp
  | cons a t ih =>
    rw [List.flatMap_cons, List.length_cons, List.range_succ_eq_map,
      List.flatMap_cons]
    simp only [List.getD_cons_zero]
    congr 1
    rw [List.flatMap_map, ih]
    congr 1

/-- Every member of a list of naturals is at most its foldr max 0. -/
theorem le_foldr_max (l : List ℕ) : ∀ x ∈ l, x ≤ l.foldr max 0 := by
  induction l with
  | nil => simp
  | cons a t ih =>
    intro x hx
    rw [List.foldr_cons]
    rcases List.mem_cons.mp hx with h | h
    · rw [h]
      exact le_max_left _ _
    · exact le_trans (ih x h) (le_max_right _ _)

/-- flatMap of an if-singleton is filter-then-map. -/
theorem flatMap_ite_singleton {β : Type} (l : List ℕ) (m : ℕ) (c : ℕ → β) :
    (l.flatMap (fun r => if r < m then [c r] else []))
      = (l.filter (fun r => decide (r < m))).map c := by
  induction l with
  | nil => simp
  | cons a t ih =>
    rw [List.flatMap_cons, List.filter_cons]
    by_cases h : a < m
    · simp [h, ih]
    · simp [h, ih]

/-- The prefix of List.range below a bound. -/
theorem filter_lt_range (m n : ℕ) (h : m ≤ n) :
    (List.range n).filter (fun r => decide (r < m)) = List.range m := by
  induction n with
  | zero =>
    have hm : m = 0 := Nat.le_zero.mp h
    simp [hm]
  | succ n ih =>
    rcases Nat.lt_or_ge n m with hlt | hge
    · have hm : m = n + 1 := by omega
      subst hm
      rw [List.filter_eq_self.mpr]
      intro a ha
      rw [List.mem_range] at ha
      simpa using ha
    · rw [List.range_succ, List.filter_append, ih hge]
      have hnm : ¬ n < m := by omega
      simp [hnm]

/-- Truncating an indicator sum to the range where its guard can hold. -/
theorem sum_range_indicator_cut (R m : ℕ) (h : m ≤ R) (q : ℕ → Bool) :
    (∑ r ∈ Finset.range R, if (q r && decide (r < m)) = true then 1 else 0)
      = ∑ r ∈ Finset.range m, if q r = true then 1 else 0 := by
  have h1 : (∑ r ∈ Finset.range m, if (q r && decide (r < m)) = true then 1 else 0)
      = ∑ r ∈ Finset.range R, if (q r && decide (r < m)) = true then 1 else 0 := by
    apply Finset.sum_subset (Finset.range_subset.mpr h)
    intro r _ hrm
    rw [Finset.mem_range] at hrm
    have hd : decide (r < m) = false := by simpa using hrm
    simp [hd]
  rw [← h1]
  apply Finset.sum_congr rfl
  intro r hr
  rw [Finset.mem_range] at hr
  have hd : decide (r < m) = true := by simpa using hr
  simp [hd]

/-- All paragraphs of all sources as chunks, source by source in paragraph
order: the reference list for C10. -/
def all_chunks (sources : List ReadingSource) : List ReadingChunk :=
  sources.flatMap (fun s =>
    (List.range s.paragraphs.length).map (fun p => mk_chunk s p))

/-- C10: for every source list, either shuffle setting and every per-round
reordering (abstracting the seeded generator: all that is used is that each
round's shuffle permutes that round's qualifying indices), the delivery
queue is a permutation of all paragraphs of all sources — its length is the
sum of the paragraph counts and each chunk occurrence appears exactly once
— and, when the source ids are pairwise distinct, the queue restricted to
one source's id is exactly that source's chunks with paragraph indices in
increasing original order; get_next_chunk walks the queue in order, so the
paragraphs of each source are delivered in their original order even when
rounds are shuffled. -/
theorem build_queue_perm_all_chunks (sources : List ReadingSource)
    (shuffle : Bool) (perm : ℕ → List ℕ → List ℕ)
    (hperm : ∀ r l, (perm r l).Perm l) :
    (build_queue sources shuffle perm).Perm (all_chunks sources) ∧
    (build_queue sources shuffle perm).length =
      (sources.map (fun s => s.paragraphs.length)).sum ∧
    (∀ i, i < sources.length → (sources.map (fun s => s.id)).Nodup →
      (build_queue sources shuffle perm).filter
          (fun ch => ch.source_id == (sources.getD i default).id)
        = (List.range (sources.getD i default).paragraphs.length).map
            (fun p => mk_chunk (sources.getD i default) p)) ∧
    (∀ queue : List ReadingChunk, ∀ k, k < queue.length →
      get_next_chunk queue k = (queue[k]?, k + 1)) := by
  have hlen_le : ∀ i, i < sources.length →
      (sources.getD i default).paragraphs.length ≤
        (sources.map (fun s => s.paragraphs.length)).foldr max 0 := by
    intro i hi
    apply le_foldr_max
    rw [List.getD_eq_getElem _ _ hi]
    exact List.mem_map.mpr ⟨sources[i], List.getElem_mem hi, rfl⟩
  -- the per-round shuffled order is always a permutation of the round order
  have horder2 : ∀ r, (if (shuffle && decide (1 < (round_order sources r).length)) = true
      then perm r (round_order sources r) else round_order sources r).Perm
        (round_order sources r) := by
    intro r
    split_ifs with hs
    · exact hperm r (round_order sources r)
    · exact List.Perm.refl _
  -- step 1: the queue is a permutation of its unshuffled form
  have hstep1 : (build_queue sources shuffle perm).Perm
      ((List.range ((sources.map (fun s => s.paragraphs.length)).foldr max 0)).flatMap
        (fun r => (round_order sources r).map
          (fun i => mk_chunk (sources.getD i default) r))) := by
    simp only [build_queue]
    apply flatMap_perm_congr
    intro r _
    exact (horder2 r).map _
  -- step 2: the unshuffled form is a permutation of all chunks (by counting)
  have hstep2 : ((List.range ((sources.map (fun s => s.paragraphs.length)).foldr
      max 0)).flatMap (fun r => (round_order sources r).map
        (fun i => mk_chunk (sources.getD i default) r))).Perm
      (all_chunks sources) := by
    rw [List.perm_iff_count]
    intro x
    rw [count_flatMap, sum_map_range, all_chunks, flatMap_index sources default,
      count_flatMap, sum_map_range]
    have hL : ∀ r, ((round_order sources r).map
        (fun i => mk_chunk (sources.getD i default) r)).count x
        = (List.range sources.length).countP
            (fun i => (mk_chunk (sources.getD i default) r == x) &&
              decide (r < (sources.getD i default).paragraphs.length)) := by
      intro r
      rw [List.count_eq_countP, List.countP_map, round_order, List.countP_filter]
      rfl
    have hR : ∀ i, ((List.range (sources.getD i default).paragraphs.length).map
        (fun p => mk_chunk (sources.getD i default) p)).count x
        = (List.range (sources.getD i default).paragraphs.length).countP
            (fun p => mk_chunk (sources.getD i default) p == x) := by
      intro i
      rw [List.count_eq_countP, List.countP_map]
      rfl
    simp only [hL, hR, countP_range]
    rw [Finset.sum_comm]
    apply Finset.sum_congr rfl
    intro i hi
    rw [Finset.mem_range] at hi
    exact sum_range_indicator_cut _ _ (hlen_le i hi) _
  refine ⟨hstep1.trans hstep2, ?_, ?_, ?_⟩
  · rw [(hstep1.trans hstep2).length_eq, all_chunks, List.length_flatMap]
    congr 1
    simp [Function.comp_def]
  · intro i hi hnd
    simp only [build_queue]
    rw [List.filter_flatMap]
    have hround : ∀ r, (((if (shuffle && decide (1 < (round_order sources r).length)) = true
        then perm r (round_order sources r) else round_order sources r).map
          (fun j => mk_chunk (sources.getD j default) r)).filter
          (fun ch => ch.source_id == (sources.getD i default).id))
        = if r < (sources.getD i default).paragraphs.length
          then [mk_chunk (sources.getD i default) r] else [] := by
      intro r
      rw [List.filter_map]
      have hpred : ∀ j ∈ (if (shuffle && decide (1 < (round_order sources r).length)) = true
          then perm r (round_order sources r) else round_order sources r),
          (((fun ch => ch.source_id == (sources.getD i default).id) ∘
            (fun j => mk_chunk (sources.getD j default) r)) j) = decide (j = i) := by
        intro j hj
        have hjmem : j ∈ round_order sources r := ((horder2 r).mem_iff).mp hj
        rw [round_order, List.mem_filter, List.mem_range] at hjmem
        obtain ⟨hjn, hjr⟩ := hjmem
        simp only [Function.comp, mk_chunk]
        by_cases hji : j = i
        · subst hji
          simp
        · have hne : (sources.getD j default).id ≠ (sources.getD i default).id := by
            intro heq
            apply hji
            rw [List.getD_eq_getElem _ _ hjn, List.getD_eq_getElem _ _ hi] at heq
            have hmapeq : (sources.map (fun s => s.id)).get
                ⟨j, by simpa using hjn⟩ =
                (sources.map (fun s => s.id)).get ⟨i, by simpa using hi⟩ := by
              simp only [List.get_eq_getElem, List.getElem_map]
              exact heq
            have hfin := (hnd.get_inj_iff).mp hmapeq
            exact congrArg Fin.val hfin
          rw [decide_eq_false hji]
          exact beq_eq_false_iff_ne.mpr hne
      rw [List.filter_congr hpred, List.filter_eq, List.map_replicate]
      have hcount : ((if (shuffle && decide (1 < (round_order sources r).length)) = true
          then perm r (round_order sources r) else round_order sources r).count i)
          = if r < (sources.getD i default).paragraphs.length then 1 else 0 := by
        rw [(horder2 r).count_eq]
        by_cases hr : r < (sources.getD i default).paragraphs.length
        · rw [if_pos hr]
          apply List.count_eq_one_of_mem
          · exact (List.nodup_range _).filter _
          · rw [round_order, List.mem_filter, List.mem_range]
            exact ⟨hi, by simpa using hr⟩
        · rw [if_neg hr]
          apply List.count_eq_zero_of_not_mem
          rw [round_order, List.mem_filter]
          rintro ⟨-, habs⟩
          rw [decide_eq_true_eq] at habs
          exact hr habs
      rw [hcount]
      by_cases hr : r < (sources.getD i default).paragraphs.length
      · rw [if_pos hr, if_pos hr]
        rfl
      · rw [if_neg hr, if_neg hr]
        rfl
    simp only [hround]
    rw [flatMap_ite_singleton, filter_lt_range _ _ (hlen_le i hi)]
  · intro queue k hk
    unfold get_next_chunk
    rw [if_pos hk]

/-- Two concrete sources for the C10 witness. -/
def c10_sources : List ReadingSource :=
  [{ id := "a", title := "A", paragraphs := ["x", "y"] },
   { id := "b", title := "B", paragraphs := ["z"] }]

/-- C10 witness: with the identity reordering (a legitimate shuffle), the
queue over two sources with 2 and 1 paragraphs is a permutation of all
three chunks, has length 3, and restricted to the first source is its two
chunks in order. -/
theorem build_queue_perm_all_chunks_witness :
    (build_queue c10_sources true (fun _ l => l)).Perm (all_chunks c10_sources) ∧
    (build_queue c10_sources true (fun _ l => l)).length = 3 ∧
    (build_queue c10_sources true (fun _ l => l)).filter
        (fun ch => ch.source_id == (c10_sources.getD 0 default).id)
      = (List.range (c10_sources.getD 0 default).paragraphs.length).map
          (fun p => mk_chunk (c10_sources.getD 0 default) p) := by
  have h := build_queue_perm_all_chunks c10_sources true (fun _ l => l)
    (fun _ _ => List.Perm.refl _)
  refine ⟨h.1, ?_, h.2.2.1 0 (by decide) (by decide)⟩
  rw [h.2.1]
  decide

end Core

namespace Poc

/-- TaskStatus enum from src/poc/assistant_core.py (this variant has no
FAILED member). -/
inductive TaskStatus where
  | initialized
  | active
  | completed
deriving Repr, DecidableEq

/-- The `.value` string of a TaskStatus. -/
def TaskStatus.value : TaskStatus → String
  | .initialized => "initialized"
  | .active => "active"
  | .completed => "completed"

/-- TaskStatus(...) applied to a serialized tag; Python raises ValueError on
an unknown string, modelled as none. -/
def TaskStatus.ofValue (v : String) : Option TaskStatus :=
  if v = "initialized" then some .initialized
  else if v = "active" then some .active
  else if v = "completed" then some .completed
  else none

/-- Applying TaskStatus(...) to a stored `.value` recovers the status. -/
theorem TaskStatus.ofValue_value (s : TaskStatus) :
    TaskStatus.ofValue s.value = some s := by
  cases s <;> rfl

/-- OutlineSection dataclass from src/poc/assistant_core.py: each entry
carries a stable id (minted at creation, preserved by serialization). -/
structure OutlineSection where
  title : String
  word_count : ℤ
  guiding_question : String := ""
  id : String := ""
deriving Repr, DecidableEq, Inhabited

/-- Outline dataclass from src/poc/assistant_core.py. -/
structure Outline where
  sections : List OutlineSection := []
deriving Repr, DecidableEq, Inhabited

/-- EssaySection dataclass from src/poc/assistant_core.py (`tree_prompts`
is a dict with the fixed keys T/R/E1/E2, modelled as an association
list). -/
structure EssaySection where
  title : String
  target_words : ℤ
  guiding_question : String := ""
  content : String := ""
  actual_words : ℤ := 0
  completed : Bool := false
  tree_prompts : List (String × String) := []
  id : String := ""
deriving Repr, DecidableEq, Inhabited

/-- RevisionIssue dataclass from src/poc/assistant_core.py. -/
structure RevisionIssue where
  issue_type : String
  description : String
  location : String
  severity : String := "medium"
  suggestion : Option String := none
deriving Repr, DecidableEq

/-- EssayData dataclass from src/poc/assistant_core.py. Instants are
naturals (see the file comment). Note this variant has no timeline
field. -/
structure EssayData where
  topic : String := ""
  essay_type : String := ""
  word_count : ℤ := 0
  deadline : Option ℕ := none
  thesis : String := ""
  thesis_suggestions : List String := []
  outline : Option Outline := none
  sections : List EssaySection := []
  revision_passes : List RevisionIssue := []
deriving Repr, DecidableEq, Inhabited

/-!
Serialization. Every `to_dict` in src/poc/assistant_core.py writes each
dataclass field, verbatim, under a fixed key (deadline through `isoformat`,
a bijection on instants modelled as the identity), so the dict of each
object is modelled by the object's own structure and `to_dict` by a
field-by-field copy. The `from_dict` side re-reads every key, with the
quirks kept below: `or []` / `or {}` on lists and dicts, `Outline.from_dict`
returning None for a falsy payload, and `OutlineSection.from_dict` minting
a fresh id (`str(uuid4())[:8]`, here the parameter `fresh`) when the stored
id is falsy (empty).
-/

/-- OutlineSection.from_dict: `data.get("id") or str(uuid.uuid4())[:8]`. -/
def OutlineSection.from_dict (fresh : String) (d : OutlineSection) : OutlineSection :=
  { title := d.title,
    word_count := d.word_count,
    guiding_question := d.guiding_question,
    id := if d.id = "" then fresh else d.id }

/-- Outline.from_dict: None for a falsy payload, else the entries. -/
def Outline.from_dict (fresh : String) (d : Option Outline) : Option Outline :=
  match d with
  | none => none
  | some o => some { sections := o.sections.map (OutlineSection.from_dict fresh) }

/-- EssaySection.from_dict: every field back, `tree_prompts or {}`. -/
def EssaySection.from_dict (d : EssaySection) : EssaySection :=
  { title := d.title,
    target_words := d.target_words,
    guiding_question := d.guiding_question,
    content := d.content,
    actual_words := d.actual_words,
    completed := d.completed,
    tree_prompts := if d.tree_prompts.isEmpty then [] else d.tree_prompts,
    id := d.id }

/-- RevisionIssue.from_dict: every field back. -/
def RevisionIssue.from_dict (d : RevisionIssue) : RevisionIssue :=
  { issue_type := d.issue_type,
    description := d.description,
    location := d.location,
    severity := d.severity,
    suggestion := d.suggestion }

/-- EssayData.to_dict: each field, verbatim (deadline via isoformat,
modelled as the identity on instants; the nested to_dict calls are
field-by-field copies under the dict-as-structure identification). -/
def EssayData.to_dict (d : EssayData) : EssayData :=
  { topic := d.topic,
    essay_type := d.essay_type,
    word_count := d.word_count,
    deadline := d.deadline,
    thesis := d.thesis,
    thesis_suggestions := d.thesis_suggestions,
    outline := d.outline,
    sections := d.sections,
    revision_passes := d.revision_passes }

/-- EssayData.from_dict: every field back, with `thesis_suggestions or []`,
`fromisoformat` on a truthy deadline, and the nested from_dict calls. -/
def EssayData.from_dict (fresh : String) (d : EssayData) : EssayData :=
  { topic := d.topic,
    essay_type := d.essay_type,
    word_count := d.word_count,
    deadline := match d.deadline with
      | none => none
      | some dt => some dt,
    thesis := d.thesis,
    thesis_suggestions := if d.thesis_suggestions.isEmpty then []
      else d.thesis_suggestions,
    outline := Outline.from_dict fresh d.outline,
    sections := d.sections.map EssaySection.from_dict,
    revision_passes := d.revision_passes.map RevisionIssue.from_dict }

/-- EssayAssistantTask from src/poc/assistant_core.py, restricted to the
state to_state/from_state carry plus created_at (which Task.__init__ stamps
with datetime.now() — the `now` argument below — since to_state does not
serialize it). -/
structure EssayAssistantTask where
  id : String
  params : List (String × String)
  created_at : ℕ
  status : TaskStatus
  current_stage_idx : ℕ
  essay_data : EssayData
deriving Repr, DecidableEq

/-- The plain record EssayAssistantTask.to_state returns. -/
structure EssayTaskState where
  id : String
  task_type : String
  params : List (String × String)
  status : String
  current_stage_idx : ℕ
  essay_data : EssayData
deriving Repr, DecidableEq

/-- EssayAssistantTask.to_state from src/poc/assistant_core.py. Note that
created_at is not serialized. -/
def EssayAssistantTask.to_state (t : EssayAssistantTask) : EssayTaskState :=
  { id := t.id,
    task_type := "essay",
    params := t.params,
    status := t.status.value,
    current_stage_idx := t.current_stage_idx,
    essay_data := t.essay_data.to_dict }

/-- EssayAssistantTask.from_state from src/poc/assistant_core.py: rebuilds
the task (TaskStatus(...) can raise on an unknown tag — none); the
constructor stamps created_at with datetime.now(), the `now` argument;
`fresh` stands for the uuid minted for a falsy stored outline-section
id. -/
def EssayAssistantTask.from_state (state : EssayTaskState) (now : ℕ)
    (fresh : String) : Option EssayAssistantTask :=
  match TaskStatus.ofValue state.status with
  | none => none
  | some st =>
    some { id := state.id,
           params := state.params,
           created_at := now,
           status := st,
           current_stage_idx := state.current_stage_idx,
           essay_data := EssayData.from_dict fresh state.essay_data }

/-- C3 (amended): serialize → restore reproduces every serialized field —
identifier, status, stage index, params, topic, essay type, word count,
deadline, thesis, thesis suggestions, outline (ids included, as long as
they are non-empty, which creation guarantees), sections with contents,
actual word counts, completed flags, tree prompts and ids, and the
revision-issue list — while created_at, which is never serialized, is
stamped with the restoration time. -/
theorem from_state_to_state (t : EssayAssistantTask) (now : ℕ) (fresh : String)
    (hids : ∀ o, t.essay_data.outline = some o → ∀ s ∈ o.sections, s.id ≠ "") :
    EssayAssistantTask.from_state (EssayAssistantTask.to_state t) now fresh
      = some { t with created_at := now } := by
  have hdata : EssayData.from_dict fresh (EssayData.to_dict t.essay_data)
      = t.essay_data := by
    unfold EssayData.from_dict EssayData.to_dict
    have houtline : Outline.from_dict fresh t.essay_data.outline
        = t.essay_data.outline := by
      cases ho : t.essay_data.outline with
      | none => rfl
      | some o =>
        have hmap : o.sections.map (OutlineSection.from_dict fresh) = o.sections := by
          have hcongr : ∀ s ∈ o.sections, OutlineSection.from_dict fresh s = s := by
            intro s hs
            unfold OutlineSection.from_dict
            rw [if_neg (hids o ho s hs)]
          rw [List.map_congr_left hcongr]
          exact List.map_id _
        simp only [Outline.from_dict, hmap]
    have hsugg : (if t.essay_data.thesis_suggestions.isEmpty then []
        else t.essay_data.thesis_suggestions) = t.essay_data.thesis_suggestions := by
      cases hts : t.essay_data.thesis_suggestions.isEmpty
      · rfl
      · rw [List.isEmpty_iff.mp hts]
        rfl
    have hsections : t.essay_data.sections.map EssaySection.from_dict
        = t.essay_data.sections := by
      have hcongr : ∀ s ∈ t.essay_data.sections, EssaySection.from_dict s = s := by
        intro s _
        have h0 : (if s.tree_prompts.isEmpty then [] else s.tree_prompts)
            = s.tree_prompts := by
          cases htp : s.tree_prompts.isEmpty
          · rfl
          · rw [List.isEmpty_iff.mp htp]
            rfl
        unfold EssaySection.from_dict
        rw [h0]
      rw [List.map_congr_left hcongr]
      exact List.map_id _
    have hissues : t.essay_data.revision_passes.map RevisionIssue.from_dict
        = t.essay_data.revision_passes := by
      have hcongr : ∀ r ∈ t.essay_data.revision_passes,
          RevisionIssue.from_dict r = r := by
        intro r _
        rfl
      rw [List.map_congr_left hcongr]
      exact List.map_id _
    have hdl : (match t.essay_data.deadline with
        | none => none
        | some dt => some dt) = t.essay_data.deadline := by
      cases t.essay_data.deadline <;> rfl
    simp only [houtline, hsugg, hsections, hissues, hdl]
  unfold EssayAssistantTask.from_state EssayAssistantTask.to_state
  simp only [TaskStatus.ofValue_value, hdata]

/-- C3 witness: the round trip at a concrete mid-Write task (the thesis,
the outline, the saved section contents, completed flags and the stage
index all come back; created_at becomes the restore time 1). -/
theorem from_state_to_state_witness :
    EssayAssistantTask.from_state
      (EssayAssistantTask.to_state
        { id := "task_1", params := [("topic", "T")], created_at := 0,
          status := .active, current_stage_idx := 2,
          essay_data :=
            { topic := "T", essay_type := "opinion", word_count := 500,
              deadline := some 7, thesis := "A thesis.",
              thesis_suggestions := ["s1"],
              outline := some { sections :=
                [{ title := "Introduction", word_count := 100,
                   guiding_question := "q", id := "a" }] },
              sections :=
                [{ title := "Introduction", target_words := 100,
                   guiding_question := "q", content := "hello world",
                   actual_words := 2, completed := true,
                   tree_prompts := [("T", "x")], id := "a" }],
              revision_passes :=
                [{ issue_type := "word_count", description := "d",
                   location := "Overall", severity := "high" }] } }) 1 "fresh"
      = some
        { id := "task_1", params := [("topic", "T")], created_at := 1,
          status := .active, current_stage_idx := 2,
          essay_data :=
            { topic := "T", essay_type := "opinion", word_count := 500,
              deadline := some 7, thesis := "A thesis.",
              thesis_suggestions := ["s1"],
              outline := some { sections :=
                [{ title := "Introduction", word_count := 100,
                   guiding_question := "q", id := "a" }] },
              sections :=
                [{ title := "Introduction", target_words := 100,
                   guiding_question := "q", content := "hello world",
                   actual_words := 2, completed := true,
                   tree_prompts := [("T", "x")], id := "a" }],
              revision_passes :=
                [{ issue_type := "word_count", description := "d",
                   location := "Overall", severity := "high" }] } } :=
  from_state_to_state _ 1 "fresh" (by decide)

/-- A concrete task whose creation instant is 0; restoring its serialized
state at instant 1 yields a task with created_at 1. -/
def c3_task : EssayAssistantTask :=
  { id := "task_1", params := [], created_at := 0, status := .active,
    current_stage_idx := 2,
    essay_data :=
      { topic := "T", word_count := 500, thesis := "A thesis.",
        sections :=
          [{ title := "Introduction", target_words := 100,
             content := "hello world", actual_words := 2,
             completed := true, id := "a" }] } }

/-- C3 counterexample: serialize → restore is not lossless for every field
of the data model — the creation timestamp is not serialized, so the
restored task differs from the original whenever the restoration instant
differs from the creation instant. -/
theorem from_state_to_state_not_lossless :
    EssayAssistantTask.from_state (EssayAssistantTask.to_state c3_task) 1 "f"
      ≠ some c3_task := by
  decide

/-- Substring search over character lists (Python's `in` operator on
strings). -/
def list_contains_sub (pat : List Char) : List Char → Bool
  | [] => pat.isEmpty
  | c :: rest => pat.isPrefixOf (c :: rest) || list_contains_sub pat rest

/-- Python `pat in hay` for strings: case-sensitive substring
containment. -/
def str_contains (hay pat : String) : Bool :=
  list_contains_sub pat.data hay.data

/-- EssayAssistantTask._get_tree_defaults from src/poc/assistant_core.py:
guidance-prompt defaults chosen by case-sensitive substring matching on the
title ("Intro", "Conclu", else the body defaults). -/
def get_tree_defaults (title : String) : List (String × String) :=
  if str_contains title "Intro" then
    [("T", "Topic/Hook"), ("R", "Reasons preview"), ("E1", "Context"),
     ("E2", "Thesis")]
  else if str_contains title "Conclu" then
    [("T", "Restate Thesis"), ("R", "Recap Reasons"), ("E1", "Significance"),
     ("E2", "Final Thought")]
  else
    [("T", "Topic Sentence"), ("R", "Reasons/Evidence"), ("E1", "Explanation"),
     ("E2", "Transition")]

/-- The dict `{s.id: s for s in sections}` of sync_outline_to_sections,
looked up at a key: a Python dict comprehension keeps the last binding of a
key, hence the reverse search. -/
def current_map_get (sections : List EssaySection) (i : String) :
    Option EssaySection :=
  sections.reverse.find? (fun s => s.id == i)

/-- EssayAssistantTask.sync_outline_to_sections from
src/poc/assistant_core.py: one essay section per outline entry — the
existing section with that id (its title, target and guiding question
refreshed from the outline entry; Python mutates the object in place,
which for pairwise-distinct outline ids is the record update below), or a
fresh section seeded with the tree-prompt defaults for the entry's
title. -/
def sync_outline_to_sections (outline : List OutlineSection)
    (sections : List EssaySection) : List EssaySection :=
  outline.map (fun out_sec =>
    match current_map_get sections out_sec.id with
    | some existing =>
      { existing with
        title := out_sec.title,
        target_words := out_sec.word_count,
        guiding_question := out_sec.guiding_question }
    | none =>
      { title := out_sec.title,
        target_words := out_sec.word_count,
        guiding_question := out_sec.guiding_question,
        id := out_sec.id,
        tree_prompts := get_tree_defaults out_sec.title })

/-- getD through a map, below the length. -/
theorem getD_map_lt {α β : Type} (f : α → β) (l : List α) (k : ℕ)
    (h : k < l.length) (d : α) (e : β) :
    (l.map f).getD k e = f (l.getD k d) := by
  rw [List.getD_eq_getElem _ _ h, List.getD_eq_getElem (l.map f) e
    (by simpa using h), List.getElem_map]

/-- C1: entering the Write stage synchronizes the section list from the
outline. With pairwise-distinct outline-entry ids (as minted at creation;
the regime in which the record update below coincides with Python's
in-place mutation): the result has one section per outline entry, in
order; an entry whose id matches an existing section keeps that section's
content, actual word count, completed flag, tree prompts and id unchanged
(title, target and guiding question refreshed from the entry), so no saved
content is lost; an entry with no matching section becomes a fresh empty
section seeded with the title-substring tree-prompt defaults; the lookup
finds a section exactly when one with that id exists, and what it finds is
one of the old sections with that id. -/
theorem sync_outline_to_sections_spec (outline : List OutlineSection)
    (sections : List EssaySection)
    (hids : (outline.map (fun o => o.id)).Nodup) :
    (sync_outline_to_sections outline sections).length = outline.length ∧
    ∀ k, k < outline.length →
      ((current_map_get sections ((outline.getD k default).id) = none ↔
          ∀ s ∈ sections, s.id ≠ (outline.getD k default).id) ∧
       (∀ ex, current_map_get sections ((outline.getD k default).id) = some ex →
          ex ∈ sections ∧ ex.id = (outline.getD k default).id ∧
          (sync_outline_to_sections outline sections).getD k default =
            { title := (outline.getD k default).title,
              target_words := (outline.getD k default).word_count,
              guiding_question := (outline.getD k default).guiding_question,
              content := ex.content,
              actual_words := ex.actual_words,
              completed := ex.completed,
              tree_prompts := ex.tree_prompts,
              id := ex.id }) ∧
       (current_map_get sections ((outline.getD k default).id) = none →
          (sync_outline_to_sections outline sections).getD k default =
            { title := (outline.getD k default).title,
              target_words := (outline.getD k default).word_count,
              guiding_question := (outline.getD k default).guiding_question,
              content := "",
              actual_words := 0,
              completed := false,
              tree_prompts := get_tree_defaults (outline.getD k default).title,
              id := (outline.getD k default).id })) := by
  constructor
  · unfold sync_outline_to_sections
    exact List.length_map _ _
  · intro k hk
    have hget : (sync_outline_to_sections outline sections).getD k default
        = (fun out_sec =>
            match current_map_get sections out_sec.id with
            | some existing =>
              { existing with
                title := out_sec.title,
                target_words := out_sec.word_count,
                guiding_question := out_sec.guiding_question }
            | none =>
              { title := out_sec.title,
                target_words := out_sec.word_count,
                guiding_question := out_sec.guiding_question,
                id := out_sec.id,
                tree_prompts := get_tree_defaults out_sec.title })
          (outline.getD k default) := by
      unfold sync_outline_to_sections
      exact getD_map_lt _ outline k hk default default
    refine ⟨?_, ?_, ?_⟩
    · unfold current_map_get
      rw [List.find?_eq_none]
      constructor
      · intro hnone s hs heq
        have := hnone s (List.mem_reverse.mpr hs)
        simp [heq] at this
      · intro hall s hs
        have h2 := hall s (List.mem_reverse.mp hs)
        simpa using h2
    · intro ex hex
      refine ⟨?_, ?_, ?_⟩
      · exact List.mem_reverse.mp (List.mem_of_find?_eq_some hex)
      · have h3 := List.find?_some hex
        simpa using h3
      · rw [hget]
        simp only []
        rw [hex]
    · intro hnone
      rw [hget]
      simp only []
      rw [hnone]

/-- A concrete outline for the C1 witness: a matched entry and a new
one. -/
def c1_outline : List OutlineSection :=
  [{ title := "Introduction", word_count := 100, guiding_question := "q1",
     id := "a" },
   { title := "Body Paragraph 1", word_count := 200, guiding_question := "q2",
     id := "b" }]

/-- The concrete pre-existing sections for the C1 witness: one saved
section whose id matches the first outline entry. -/
def c1_sections : List EssaySection :=
  [{ title := "Old Intro", target_words := 50, guiding_question := "old",
     content := "saved text", actual_words := 2, completed := true,
     tree_prompts := [("T", "x")], id := "a" }]

/-- C1 witness: at the concrete input, the matched entry keeps its saved
content, word count and completed flag (title and target refreshed), and
the unmatched entry becomes a fresh body-default section. -/
theorem sync_outline_to_sections_spec_witness :
    (sync_outline_to_sections c1_outline c1_sections).getD 0 default =
      { title := "Introduction", target_words := 100, guiding_question := "q1",
        content := "saved text", actual_words := 2, completed := true,
        tree_prompts := [("T", "x")], id := "a" } ∧
    (sync_outline_to_sections c1_outline c1_sections).getD 1 default =
      { title := "Body Paragraph 1", target_words := 200,
        guiding_question := "q2", content := "", actual_words := 0,
        completed := false,
        tree_prompts := [("T", "Topic Sentence"), ("R", "Reasons/Evidence"),
          ("E1", "Explanation"), ("E2", "Transition")],
        id := "b" } := by
  have h := sync_outline_to_sections_spec c1_outline c1_sections (by decide)
  constructor
  · have hm := ((h.2 0 (by decide)).2.1
      { title := "Old Intro", target_words := 50, guiding_question := "old",
        content := "saved text", actual_words := 2, completed := true,
        tree_prompts := [("T", "x")], id := "a" } (by decide)).2.2
    rw [hm]
    decide
  · have hn := (h.2 1 (by decide)).2.2 (by decide)
    rw [hn]
    decide

/-- ReadingSource dataclass from src/poc/assistant_core.py: a per-source
cursor (current_index) marks the next unread paragraph. -/
structure ReadingSource where
  id : String
  title : String
  paragraphs : List String
  current_index : ℕ := 0
deriving Repr, DecidableEq, Inhabited

/-- The state of a poc ReadingAssistantTask that advance and
get_current_chunk read or write (id, params and status are never
touched by them). -/
structure ReadingTask where
  sources : List ReadingSource
  current_source_idx : Option ℕ
deriving Repr, DecidableEq

/-- A source has unread paragraphs when its cursor is before its end. -/
def has_unread (s : ReadingSource) : Bool :=
  s.current_index < s.paragraphs.length

/-- The guarded cursor increment at the top of advance: the cursor moves by
one only while it is before the end of the paragraphs. -/
def bump_cursor (s : ReadingSource) : ReadingSource :=
  if s.current_index < s.paragraphs.length then
    { s with current_index := s.current_index + 1 }
  else s

/-- The round-robin scan of advance(mode="switch"): for i in
range(1, len(sources)+1), the first index (start+i) % len(sources) whose
source still has unread paragraphs. -/
def switch_search (sources : List ReadingSource) (start : ℕ) : Option ℕ :=
  ((List.range sources.length).map
      (fun i => (start + i + 1) % sources.length)).find?
    (fun idx => has_unread (sources.getD idx default))

/-- ReadingAssistantTask.advance from src/poc/assistant_core.py. mode
"switch" bumps the focused source's cursor and scans round-robin for the
next source with unread paragraphs (focus unchanged when none has);
mode "continue" bumps the cursor and, when the focused source is thereby
(or was already) exhausted, recursively performs advance("switch") — whose
own bump is then a no-op — so focus moves on; any other mode only bumps. -/
def advance (t : ReadingTask) (mode : String) : ReadingTask :=
  match t.current_source_idx with
  | none => t
  | some f =>
    let bumped := bump_cursor (t.sources.getD f default)
    let sources1 := t.sources.set f bumped
    if mode == "switch" then
      match switch_search sources1 f with
      | some idx => { sources := sources1, current_source_idx := some idx }
      | none => { sources := sources1, current_source_idx := some f }
    else if mode == "continue" then
      if bumped.paragraphs.length ≤ bumped.current_index then
        match switch_search sources1 f with
        | some idx => { sources := sources1, current_source_idx := some idx }
        | none => { sources := sources1, current_source_idx := some f }
      else { sources := sources1, current_source_idx := some f }
    else { sources := sources1, current_source_idx := some f }

/-- The two shapes of dict ReadingAssistantTask.get_current_chunk
returns. -/
inductive ChunkView where
  | chunk (source_title : String) (text : String) (para_num : ℕ)
      (total_paras : ℕ)
  | finished (source_title : String) (text : String)
deriving Repr, DecidableEq

/-- ReadingAssistantTask.get_current_chunk from src/poc/assistant_core.py:
none without a focused source; the paragraph under the focused source's
cursor; or the is_finished=True view once the cursor has reached the
source's end. -/
def get_current_chunk (t : ReadingTask) : Option ChunkView :=
  match t.current_source_idx with
  | none => none
  | some f =>
    let src := t.sources.getD f default
    if src.current_index < src.paragraphs.length then
      some (.chunk src.title (src.paragraphs.getD src.current_index "")
        (src.current_index + 1) src.paragraphs.length)
    else some (.finished src.title "End of text.")

/-- What the switch scan must deliver (the claim's round-robin wording):
either the focus lands on the nearest offset 1 ≤ j ≤ n from the current
position, cyclically, whose source still has unread paragraphs, or no
source has unread paragraphs and the focus is unchanged. -/
def round_robin_switch (sources : List ReadingSource) (f : ℕ)
    (res : Option ℕ) : Prop :=
  (∃ g j, res = some g ∧ 1 ≤ j ∧ j ≤ sources.length ∧
    g = (f + j) % sources.length ∧
    has_unread (sources.getD g default) = true ∧
    ∀ j', 1 ≤ j' → j' < j →
      has_unread (sources.getD ((f + j') % sources.length) default) = false)
  ∨ ((∀ i, i < sources.length → has_unread (sources.getD i default) = false) ∧
    res = some f)

/-- What find? finds: the first element of the list satisfying the
predicate. -/
theorem find?_eq_some_index {α : Type} (p : α → Bool) (l : List α) (x : α)
    (h : l.find? p = some x) :
    ∃ k, ∃ hk : k < l.length, l.get ⟨k, hk⟩ = x ∧ p x = true ∧
      ∀ m, ∀ hm : m < l.length, m < k → p (l.get ⟨m, hm⟩) = false := by
  induction l with
  | nil => simp at h
  | cons a t ih =>
    by_cases hpa : p a = true
    · rw [List.find?_cons_of_pos _ hpa] at h
      obtain rfl : a = x := by injection h
      refine ⟨0, by simp, rfl, hpa, ?_⟩
      intro m hm hm0
      omega
    · rw [List.find?_cons_of_neg _ (by simpa using hpa)] at h
      obtain ⟨k, hk, hget, hpx, hmin⟩ := ih h
      refine ⟨k + 1, by simpa using hk, hget, hpx, ?_⟩
      intro m hm hmk
      cases m with
      | zero => simpa using hpa
      | succ m' =>
        exact hmin m' (by simpa using hm) (by omega)

/-- Surjectivity of the cyclic shift onto residues: every index below n is
hit by a + j mod n for some j below n. -/
theorem cyc_surj (n a i : ℕ) (hn : 0 < n) (hi : i < n) :
    ∃ j, j < n ∧ (a + j) % n = i := by
  refine ⟨(i + n - a % n) % n, Nat.mod_lt _ hn, ?_⟩
  have hlt : a % n < n := Nat.mod_lt _ hn
  have hdm := Nat.div_add_mod a n
  rw [Nat.add_mod_mod]
  have key : a + (i + n - a % n) = n * (a / n) + (n + i) := by omega
  rw [key, Nat.mul_add_mod, Nat.add_mod_left, Nat.mod_eq_of_lt hi]

/-- The switch scan is sound for the round-robin specification: resolving
its result as advance does (found index, else the unchanged focus) always
satisfies round_robin_switch. -/
theorem switch_search_round_robin (sources : List ReadingSource) (f : ℕ)
    (hn : 0 < sources.length) :
    round_robin_switch sources f
      (match switch_search sources f with
       | some idx => some idx
       | none => some f) := by
  cases hss : switch_search sources f with
  | some g =>
    left
    obtain ⟨k, hk, hget, hpx, hmin⟩ := find?_eq_some_index _ _ _ hss
    have hklen : k < sources.length := by simpa using hk
    have hg : g = (f + (k + 1)) % sources.length := by
      rw [← hget]
      simp only [List.get_eq_getElem, List.getElem_map, List.getElem_range]
      rw [Nat.add_assoc]
    refine ⟨g, k + 1, rfl, by omega, by omega, hg, hpx, ?_⟩
    intro j' h1 hj'
    have hm : j' - 1 < ((List.range sources.length).map
        (fun i => (f + i + 1) % sources.length)).length := by
      simpa using by omega
    have := hmin (j' - 1) hm (by omega)
    simp only [List.get_eq_getElem, List.getElem_map, List.getElem_range] at this
    have harg : f + (j' - 1) + 1 = f + j' := by omega
    rw [harg] at this
    exact this
  | none =>
    right
    refine ⟨?_, rfl⟩
    intro i hi
    have hnone := List.find?_eq_none.mp hss
    obtain ⟨j, hj, hcf⟩ := cyc_surj sources.length (f + 1) i hn hi
    have harg : f + 1 + j = f + j + 1 := by omega
    rw [harg] at hcf
    have hmem : i ∈ (List.range sources.length).map
        (fun jj => (f + jj + 1) % sources.length) :=
      List.mem_map.mpr ⟨j, List.mem_range.mpr hj, hcf⟩
    have := hnone i hmem
    simpa using this

/-- C2 (amended): with a focused source, advance bumps only that source's
cursor (by one while unread paragraphs remain; it is already capped at the
end). Mode "switch" then moves focus to the nearest round-robin successor
(offsets 1..n from the current position, wrapping over all sources, the
current one included last) that still has unread paragraphs, and leaves
focus unchanged when no source has any; no exception is raised. Mode
"continue" keeps focus on the current source while it still has unread
paragraphs after the bump, but once the current source is exhausted it
performs the same switch scan, moving focus on (focus unchanged when no
source has unread paragraphs). get_current_chunk reports the finished view
exactly while the focused source's cursor is at its end. -/
theorem advance_spec (t : ReadingTask) (f : ℕ)
    (hf : t.current_source_idx = some f) (hflen : f < t.sources.length) :
    ((advance t "continue").sources
        = t.sources.set f (bump_cursor (t.sources.getD f default))) ∧
    ((advance t "switch").sources
        = t.sources.set f (bump_cursor (t.sources.getD f default))) ∧
    (has_unread (t.sources.getD f default) = true →
      (bump_cursor (t.sources.getD f default)).current_index
        = (t.sources.getD f default).current_index + 1) ∧
    (has_unread (t.sources.getD f default) = false →
      bump_cursor (t.sources.getD f default) = t.sources.getD f default) ∧
    ((bump_cursor (t.sources.getD f default)).paragraphs
        = (t.sources.getD f default).paragraphs) ∧
    round_robin_switch (t.sources.set f (bump_cursor (t.sources.getD f default)))
      f ((advance t "switch").current_source_idx) ∧
    (if has_unread (bump_cursor (t.sources.getD f default)) = true
      then (advance t "continue").current_source_idx = some f
      else round_robin_switch
        (t.sources.set f (bump_cursor (t.sources.getD f default))) f
        ((advance t "continue").current_source_idx)) ∧
    (∀ t2 : ReadingTask, ∀ f2, t2.current_source_idx = some f2 →
      has_unread (t2.sources.getD f2 default) = false →
      get_current_chunk t2
        = some (ChunkView.finished (t2.sources.getD f2 default).title
            "End of text.")) := by
  obtain ⟨srcs, cs⟩ := t
  simp only at hf hflen
  subst hf
  have hlen1 : 0 < (srcs.set f (bump_cursor (srcs.getD f default))).length := by
    rw [List.length_set]
    omega
  have hswitch : advance ⟨srcs, some f⟩ "switch"
      = (match switch_search (srcs.set f (bump_cursor (srcs.getD f default))) f with
         | some idx =>
           { sources := srcs.set f (bump_cursor (srcs.getD f default)),
             current_source_idx := some idx }
         | none =>
           { sources := srcs.set f (bump_cursor (srcs.getD f default)),
             current_source_idx := some f }) := rfl
  have hcont : advance ⟨srcs, some f⟩ "continue"
      = (if (bump_cursor (srcs.getD f default)).paragraphs.length ≤
            (bump_cursor (srcs.getD f default)).current_index then
          match switch_search (srcs.set f (bump_cursor (srcs.getD f default))) f with
          | some idx =>
            { sources := srcs.set f (bump_cursor (srcs.getD f default)),
              current_source_idx := some idx }
          | none =>
            { sources := srcs.set f (bump_cursor (srcs.getD f default)),
              current_source_idx := some f }
        else
          { sources := srcs.set f (bump_cursor (srcs.getD f default)),
            current_source_idx := some f }) := rfl
  refine ⟨?_, ?_, ?_, ?_, ?_, ?_, ?_, ?_⟩
  · rw [hcont]
    split_ifs with h1
    · cases hss : switch_search (srcs.set f (bump_cursor (srcs.getD f default))) f with
      | some g => rfl
      | none => rfl
    · rfl
  · rw [hswitch]
    cases hss : switch_search (srcs.set f (bump_cursor (srcs.getD f default))) f with
    | some g => rfl
    | none => rfl
  · intro h
    simp only [has_unread, decide_eq_true_eq] at h
    unfold bump_cursor
    rw [if_pos h]
  · intro h
    simp only [has_unread, decide_eq_false_iff_not] at h
    unfold bump_cursor
    rw [if_neg h]
  · unfold bump_cursor
    split_ifs <;> rfl
  · have hrr := switch_search_round_robin
      (srcs.set f (bump_cursor (srcs.getD f default))) f hlen1
    rw [hswitch]
    cases hss : switch_search (srcs.set f (bump_cursor (srcs.getD f default))) f with
    | some g =>
      rw [hss] at hrr
      exact hrr
    | none =>
      rw [hss] at hrr
      exact hrr
  · by_cases hu : has_unread (bump_cursor (srcs.getD f default)) = true
    · rw [if_pos hu, hcont]
      simp only [has_unread, decide_eq_true_eq] at hu
      rw [if_neg (by omega)]
    · rw [if_neg hu, hcont]
      simp only [has_unread, decide_eq_true_eq, Nat.not_lt] at hu
      rw [if_pos hu]
      have hrr := switch_search_round_robin
        (srcs.set f (bump_cursor (srcs.getD f default))) f hlen1
      cases hss : switch_search (srcs.set f (bump_cursor (srcs.getD f default))) f with
      | some g =>
        rw [hss] at hrr
        exact hrr
      | none =>
        rw [hss] at hrr
        exact hrr
  · intro t2 f2 h2 hu2
    obtain ⟨s2, c2⟩ := t2
    simp only at h2 hu2 ⊢
    subst h2
    simp only [has_unread, decide_eq_false_iff_not, Nat.not_lt] at hu2
    unfold get_current_chunk
    simp only []
    rw [if_neg (by omega)]

/-- A concrete state for C2: two sources of one paragraph each, focus on the
first, both cursors at 0. -/
def c2_state : ReadingTask :=
  { sources := [{ id := "src_0", title := "Text 1", paragraphs := ["a"] },
                { id := "src_1", title := "Text 2", paragraphs := ["b"] }],
    current_source_idx := some 0 }

/-- C2 counterexample: advance(mode="continue") does NOT always keep focus
on the current source — reading the only paragraph of source 0 exhausts it,
and the recursive switch inside the continue branch moves focus to source
1. -/
theorem advance_continue_moves_focus :
    c2_state.current_source_idx = some 0 ∧
    (advance c2_state "continue").current_source_idx = some 1 := by
  decide

/-- C2 witness: the amended statement applied at the concrete two-source
state. -/
theorem advance_spec_witness :
    ((advance c2_state "continue").sources
        = c2_state.sources.set 0 (bump_cursor (c2_state.sources.getD 0 default))) ∧
    round_robin_switch
      (c2_state.sources.set 0 (bump_cursor (c2_state.sources.getD 0 default))) 0
      ((advance c2_state "switch").current_source_idx) := by
  have h := advance_spec c2_state 0 (by decide) (by decide)
  exact ⟨h.1, h.2.2.2.2.2.1⟩

end Poc
